import Mathlib

/-!
Shallow embedding of the ATtiny13A buzzer firmware (src/main.c) and proofs
of the specified properties: the persistent frequency store, the tone
generator, the calibration sweep, and the main polling loop.
-/

namespace Buzzer

/-! ### Configuration constants (src/main.c lines 58-85) -/

def DEFAULT_FREQ : Nat := 2500
def EEPROM_FREQ_ADDR : Nat := 0
def EEPROM_MAGIC_ADDR : Nat := 2
def EEPROM_MAGIC : Nat := 0xAB

def FREQ_MIN : Nat := 2400
def FREQ_MAX : Nat := 3000
def FREQ_STEP : Nat := 100

def BEEP_SHORT_MS : Nat := 100
def BEEP_LONG_MS : Nat := 400
def PAUSE_SHORT_MS : Nat := 100
def PAUSE_LONG_MS : Nat := 300
def CALIB_TONE_MS : Nat := 1500
def CALIB_PAUSE_MS : Nat := 500

/-! ### EEPROM model

The EEPROM is a byte-addressed store.  avr-libc word access is
little-endian: the low byte at the given address, the high byte at the
next address.  Cells hold bytes, so reads reduce modulo 256. -/

def Eeprom : Type := Nat → Nat

def eeprom_read_byte (e : Eeprom) (addr : Nat) : Nat := e addr % 256

def eeprom_write_byte (e : Eeprom) (addr val : Nat) : Eeprom :=
  fun a => if a = addr then val % 256 else e a

def eeprom_read_word (e : Eeprom) (addr : Nat) : Nat :=
  eeprom_read_byte e addr + 256 * eeprom_read_byte e (addr + 1)

def eeprom_write_word (e : Eeprom) (addr val : Nat) : Eeprom :=
  eeprom_write_byte (eeprom_write_byte e addr (val % 256)) (addr + 1) (val / 256 % 256)

/-- load_freq_from_eeprom (src/main.c lines 187-203): check the magic
byte, then read and range-check the stored word. -/
def load_freq_from_eeprom (e : Eeprom) : Nat :=
  let magic := eeprom_read_byte e EEPROM_MAGIC_ADDR
  if magic ≠ EEPROM_MAGIC then
    DEFAULT_FREQ
  else
    let freq := eeprom_read_word e EEPROM_FREQ_ADDR
    if freq < 2400 ∨ freq > 4500 then
      DEFAULT_FREQ
    else
      freq

/-- The EEPROM addresses read by load_freq_from_eeprom, in order: the
magic byte first; the two bytes of the frequency word only when the
magic matched (mirrors the early return at line 192). -/
def load_freq_reads (e : Eeprom) : List Nat :=
  let magic := eeprom_read_byte e EEPROM_MAGIC_ADDR
  if magic ≠ EEPROM_MAGIC then
    [EEPROM_MAGIC_ADDR]
  else
    [EEPROM_MAGIC_ADDR, EEPROM_FREQ_ADDR, EEPROM_FREQ_ADDR + 1]

/-- save_freq_to_eeprom (src/main.c lines 208-211): write the frequency
word at address 0, then the magic byte at address 2. -/
def save_freq_to_eeprom (freq : Nat) (e : Eeprom) : Eeprom :=
  eeprom_write_byte (eeprom_write_word e EEPROM_FREQ_ADDR freq) EEPROM_MAGIC_ADDR EEPROM_MAGIC

/-- One EEPROM write call, as issued by the firmware. -/
inductive WriteEv : Type
  | word : Nat → Nat → WriteEv
  | byte : Nat → Nat → WriteEv
deriving DecidableEq, Repr

/-- Apply one write call to the store. -/
def applyWrite (e : Eeprom) : WriteEv → Eeprom
  | .word a v => eeprom_write_word e a v
  | .byte a v => eeprom_write_byte e a v

/-- The sequence of EEPROM write calls made by save_freq_to_eeprom, in
source order (line 209 then line 210). -/
def save_freq_events (freq : Nat) : List WriteEv :=
  [WriteEv.word EEPROM_FREQ_ADDR freq, WriteEv.byte EEPROM_MAGIC_ADDR EEPROM_MAGIC]

/-- The byte addresses touched by a write call. -/
def writeAddrs : WriteEv → List Nat
  | .word a _ => [a, a + 1]
  | .byte a _ => [a]

/-! ### Tone generator (src/main.c lines 90-152)

The MCU registers the firmware touches.  All registers are 8-bit;
sreg_I is the global interrupt enable flag set by sei(). -/

def BUZZER_PIN : Nat := 3
def SIGNAL_PIN : Nat := 1
def OCIE0A : Nat := 2
def WGM01 : Nat := 1
def CS01 : Nat := 1

structure Regs : Type where
  OCR0A : Nat
  DDRB : Nat
  PORTB : Nat
  TCCR0A : Nat
  TCCR0B : Nat
  TIMSK0 : Nat
  sreg_I : Bool
deriving DecidableEq, Repr

/-- tone_start (src/main.c lines 103-137).  fcpu is the compile-time
F_CPU (the #error at line 37 restricts it to 9600000 or 1200000; the
#if at line 112 selects the 9.6 MHz constant, anything else compiles
the 1.2 MHz branch).  ocr_val is a uint16_t, hence the % 65536 on
assignment; the store into OCR0A casts to uint8_t, hence % 256. -/
def tone_start (fcpu : Nat) (freq : Nat) (s : Regs) : Regs :=
  if freq = 0 then s
  else
    let ocr_val : Nat := ((if fcpu = 9600000 then 600000 / freq else 75000 / freq) - 1) % 65536
    let ocr_val := if ocr_val > 255 then 255 else ocr_val
    let ocr_val := if ocr_val < 1 then 1 else ocr_val
    { s with
      OCR0A := ocr_val % 256
      DDRB := s.DDRB ||| (1 <<< BUZZER_PIN)
      TCCR0A := 1 <<< WGM01
      TCCR0B := 1 <<< CS01
      TIMSK0 := s.TIMSK0 ||| (1 <<< OCIE0A)
      sreg_I := true }

/-- tone_stop (src/main.c lines 142-152).  0xFB is the 8-bit value of
~(1 << OCIE0A); 0xF7 is the 8-bit value of ~(1 << BUZZER_PIN). -/
def tone_stop (s : Regs) : Regs :=
  { s with
    TIMSK0 := s.TIMSK0 &&& 0xFB
    TCCR0A := 0
    TCCR0B := 0
    PORTB := s.PORTB &&& 0xF7 }

/-- A tone is inactive: the compare-match interrupt is masked, the
timer is stopped and the output line PB3 is low (registers hold bytes). -/
def toneStopped (s : Regs) : Prop :=
  s.TIMSK0.testBit OCIE0A = false ∧ s.TCCR0A = 0 ∧ s.TCCR0B = 0 ∧
  s.PORTB.testBit BUZZER_PIN = false ∧ s.TIMSK0 < 256 ∧ s.PORTB < 256

/-! ### Observable events of the relay loop and the blocking waits -/

inductive Ev : Type
  | tstart : Nat → Ev
  | tstop : Ev
  | delay_ms10 : Ev
  | wdt_rst : Ev
  | delay_us : Nat → Ev
deriving DecidableEq, Repr

/-- The 10 ms sub-delay loop shared verbatim by beep (src/main.c lines
161-165) and pause (lines 174-178): while duration_ms >= 10, delay
10 ms, reset the watchdog, subtract 10. -/
def delay_loop_tr (duration_ms : Nat) : List Ev :=
  if 10 ≤ duration_ms then
    Ev.delay_ms10 :: Ev.wdt_rst :: delay_loop_tr (duration_ms - 10)
  else []
termination_by duration_ms
decreasing_by omega

/-- Event trace of beep (src/main.c lines 157-168). -/
def beep_tr (freq duration_ms : Nat) : List Ev :=
  Ev.tstart freq :: delay_loop_tr duration_ms ++ [Ev.tstop]

/-- Event trace of pause (src/main.c lines 173-179). -/
def pause_tr (duration_ms : Nat) : List Ev :=
  delay_loop_tr duration_ms

/-- Milliseconds spent waiting in a trace (each delay_ms10 is 10 ms). -/
def elapsed_ms : List Ev → Nat
  | [] => 0
  | Ev.delay_ms10 :: tl => 10 + elapsed_ms tl
  | _ :: tl => elapsed_ms tl

/-! ### Signal relay / main loop (src/main.c lines 266-312) -/

/-- fc_wants_sound (src/main.c lines 266-268): BUZ- low means sound
requested; pinb is the PINB input register. -/
def fc_wants_sound (pinb : Nat) : Bool :=
  pinb &&& (1 <<< SIGNAL_PIN) == 0

/-- One iteration of the polling loop body (src/main.c lines 292-305),
restricted to the state update and the tone calls it makes; sound_on
is the loop-local flag, pinb the sampled input register. -/
def loop_step (freq : Nat) (sound_on : Bool) (pinb : Nat) : Bool × List Ev :=
  if fc_wants_sound pinb then
    if !sound_on then (true, [Ev.tstart freq]) else (sound_on, [])
  else
    if sound_on then (false, [Ev.tstop]) else (sound_on, [])

/-- One full iteration of the polling loop (src/main.c lines 292-312):
the conditional tone call, then wdt_reset(), then _delay_us(100). -/
def main_iter (freq : Nat) (sound_on : Bool) (pinb : Nat) : Bool × List Ev :=
  let r := loop_step freq sound_on pinb
  (r.1, r.2 ++ [Ev.wdt_rst, Ev.delay_us 100])

/-- Run the polling loop over a list of consecutive input samples,
recording after each iteration the sound_on state and the tone calls
made in that iteration. -/
def loop_run (freq : Nat) (sound_on : Bool) : List Nat → List (Bool × List Ev)
  | [] => []
  | pinb :: rest =>
    let r := loop_step freq sound_on pinb
    r :: loop_run freq r.1 rest

/-! ### Calibration sweep (src/main.c lines 220-239) -/

inductive SweepEv : Type
  | save : Nat → SweepEv
  | play : Nat → Nat → SweepEv
  | rest : Nat → SweepEv
deriving DecidableEq, Repr

/-- The inner for loop of auto_sweep_mode (src/main.c lines 230-235):
for freq from FREQ_MIN while freq <= FREQ_MAX step FREQ_STEP, save the
frequency to EEPROM, then beep it, then pause. -/
def sweep_pass (freq : Nat) : List SweepEv :=
  if freq ≤ FREQ_MAX then
    SweepEv.save freq :: SweepEv.play freq CALIB_TONE_MS :: SweepEv.rest CALIB_PAUSE_MS
      :: sweep_pass (freq + FREQ_STEP)
  else []
termination_by FREQ_MAX + 1 - freq
decreasing_by simp [FREQ_MAX, FREQ_STEP] at *; omega

/-- One iteration of the while(1) loop of auto_sweep_mode: a full
sweep pass followed by the pause(1000) at line 237. -/
def sweep_iter_trace : List SweepEv :=
  sweep_pass FREQ_MIN ++ [SweepEv.rest 1000]

/-- The calibration-sweep event trace of n iterations of the while(1)
loop of auto_sweep_mode. -/
def auto_sweep_trace : Nat → List SweepEv
  | 0 => []
  | n + 1 => sweep_iter_trace ++ auto_sweep_trace n

/-- The while(1) loop of auto_sweep_mode (src/main.c lines 228-238) as
a fuel-indexed runner: the body never breaks or returns, so the loop
yields a result for no amount of fuel. -/
def auto_sweep_loop : Nat → Option Unit
  | 0 => none
  | n + 1 => auto_sweep_loop n

/-- Checks along a sweep trace that every tone played is the frequency
most recently saved to EEPROM: the first argument tracks the last saved
frequency (none before any save). -/
def persisted_ok : List SweepEv → Option Nat → Bool
  | [], _ => true
  | SweepEv.save f :: tl, _ => persisted_ok tl (some f)
  | SweepEv.play f _ :: tl, saved => (saved == some f) && persisted_ok tl saved
  | SweepEv.rest _ :: tl, saved => persisted_ok tl saved

/-! ### Theorems -/

/-- C1: load_freq_from_eeprom returns the default 2500 when the stored
validity marker differs from the sentinel 0xAB, reading only the marker
byte and not the frequency field; when the marker matches, it returns
the stored word exactly when that word lies in [2400, 4500] and the
default 2500 otherwise; in every case the result is a usable frequency
in [2400, 4500]. -/
theorem C1_load_validates (e : Eeprom) :
    (eeprom_read_byte e EEPROM_MAGIC_ADDR ≠ EEPROM_MAGIC →
      load_freq_from_eeprom e = DEFAULT_FREQ ∧
      load_freq_reads e = [EEPROM_MAGIC_ADDR] ∧
      EEPROM_FREQ_ADDR ∉ load_freq_reads e ∧ EEPROM_FREQ_ADDR + 1 ∉ load_freq_reads e) ∧
    (eeprom_read_byte e EEPROM_MAGIC_ADDR = EEPROM_MAGIC →
      ((load_freq_from_eeprom e = eeprom_read_word e EEPROM_FREQ_ADDR) ↔
        (2400 ≤ eeprom_read_word e EEPROM_FREQ_ADDR ∧
         eeprom_read_word e EEPROM_FREQ_ADDR ≤ 4500)) ∧
      ((eeprom_read_word e EEPROM_FREQ_ADDR < 2400 ∨
        4500 < eeprom_read_word e EEPROM_FREQ_ADDR) →
        load_freq_from_eeprom e = DEFAULT_FREQ)) ∧
    2400 ≤ load_freq_from_eeprom e ∧ load_freq_from_eeprom e ≤ 4500 := by
  unfold load_freq_from_eeprom load_freq_reads
  simp only [DEFAULT_FREQ, EEPROM_MAGIC, EEPROM_MAGIC_ADDR, EEPROM_FREQ_ADDR]
  split_ifs with h1 h2
  · refine ⟨fun _ => ⟨rfl, rfl, ?_, ?_⟩, fun hm => absurd hm h1, by omega, by omega⟩
    · simp
    · simp
  · refine ⟨fun hm => absurd hm h1, fun _ => ⟨?_, fun _ => rfl⟩, by omega, by omega⟩
    omega
  · refine ⟨fun hm => absurd hm h1, fun _ => ⟨?_, fun hc => absurd hc h2⟩, by omega, by omega⟩
    omega

/-- C1 witness: concrete instances — a store with an invalid marker
yields the default, and a store with a valid marker and stored value
2600 yields 2600. -/
theorem C1_load_validates_witness :
    load_freq_from_eeprom (fun _ => 0) = DEFAULT_FREQ ∧
    (load_freq_from_eeprom (fun a => if a = 2 then 0xAB else if a = 1 then 10 else 40) =
      eeprom_read_word (fun a => if a = 2 then 0xAB else if a = 1 then 10 else 40) 0) := by
  refine ⟨((C1_load_validates (fun _ => 0)).1 (by decide)).1, ?_⟩
  exact ((C1_load_validates (fun a => if a = 2 then 0xAB else if a = 1 then 10 else 40)).2.1
    (by decide)).1.mpr (by decide)

/-- C2: a save of any f in [2400, 4500] followed by a load returns
exactly f; save(2500) then save(2600) then load returns 2600; and on a
store whose marker byte is not the sentinel, load returns 2500. -/
theorem C2_save_load_roundtrip :
    (∀ (e : Eeprom) (f : Nat), 2400 ≤ f → f ≤ 4500 →
      load_freq_from_eeprom (save_freq_to_eeprom f e) = f) ∧
    (∀ e : Eeprom,
      load_freq_from_eeprom (save_freq_to_eeprom 2600 (save_freq_to_eeprom 2500 e)) = 2600) ∧
    (∀ e : Eeprom, eeprom_read_byte e EEPROM_MAGIC_ADDR ≠ EEPROM_MAGIC →
      load_freq_from_eeprom e = DEFAULT_FREQ) := by
  refine ⟨?_, ?_, ?_⟩
  · intro e f h1 h2
    simp only [load_freq_from_eeprom, save_freq_to_eeprom, eeprom_write_word,
      eeprom_write_byte, eeprom_read_word, eeprom_read_byte, EEPROM_MAGIC,
      EEPROM_MAGIC_ADDR, EEPROM_FREQ_ADDR, DEFAULT_FREQ]
    norm_num
    split_ifs with h <;> omega
  · intro e
    simp only [load_freq_from_eeprom, save_freq_to_eeprom, eeprom_write_word,
      eeprom_write_byte, eeprom_read_word, eeprom_read_byte, EEPROM_MAGIC,
      EEPROM_MAGIC_ADDR, EEPROM_FREQ_ADDR, DEFAULT_FREQ]
    norm_num
  · intro e hm
    simp only [load_freq_from_eeprom, EEPROM_MAGIC, EEPROM_MAGIC_ADDR, DEFAULT_FREQ] at *
    simp [hm]

/-- C2 witness: the roundtrip at f = 2600 on the all-zero store, the
last-write-wins scenario, and the fresh-store default. -/
theorem C2_save_load_roundtrip_witness :
    load_freq_from_eeprom (save_freq_to_eeprom 2600 (fun _ => 0)) = 2600 ∧
    load_freq_from_eeprom (save_freq_to_eeprom 2600 (save_freq_to_eeprom 2500 (fun _ => 0))) = 2600 ∧
    load_freq_from_eeprom (fun _ => 0) = DEFAULT_FREQ :=
  ⟨C2_save_load_roundtrip.1 (fun _ => 0) 2600 (by decide) (by decide),
   C2_save_load_roundtrip.2.1 (fun _ => 0),
   C2_save_load_roundtrip.2.2 (fun _ => 0) (by decide)⟩

/-- C7: save_freq_to_eeprom issues exactly two write calls, in order the
16-bit frequency word at offset 0 and then the 8-bit sentinel 0xAB at
offset 2; replaying those calls reproduces the state update; the bytes
touched are exactly 0, 1 (the word) and 2 (the marker), and every other
storage location is left unchanged. -/
theorem C7_save_write_order (f : Nat) (e : Eeprom) :
    save_freq_events f =
      [WriteEv.word EEPROM_FREQ_ADDR f, WriteEv.byte EEPROM_MAGIC_ADDR EEPROM_MAGIC] ∧
    (save_freq_events f).length = 2 ∧
    List.foldl applyWrite e (save_freq_events f) = save_freq_to_eeprom f e ∧
    (save_freq_events f).flatMap writeAddrs = [0, 1, 2] ∧
    (∀ a : Nat, a ∉ (save_freq_events f).flatMap writeAddrs →
      save_freq_to_eeprom f e a = e a) := by
  refine ⟨rfl, rfl, rfl, rfl, ?_⟩
  intro a ha
  simp only [save_freq_events, writeAddrs, List.flatMap_cons, List.flatMap_nil,
    List.append_nil, List.mem_cons, List.mem_append, List.mem_singleton,
    EEPROM_FREQ_ADDR, EEPROM_MAGIC_ADDR] at ha
  push_neg at ha
  simp only [save_freq_to_eeprom, eeprom_write_word, eeprom_write_byte,
    EEPROM_FREQ_ADDR, EEPROM_MAGIC_ADDR]
  simp only [ha.1, ha.2.1, ha.2.2, if_false, ite_false]

/-- C7 witness: replaying the two write calls of save(2500) on the
all-zero store matches the direct state update, and address 3 is left
unchanged. -/
theorem C7_save_write_order_witness :
    List.foldl applyWrite (fun _ => 0) (save_freq_events 2500) =
      save_freq_to_eeprom 2500 (fun _ => 0) ∧
    save_freq_to_eeprom 2500 (fun _ => 0) 3 = (fun _ => (0 : Nat)) 3 :=
  ⟨(C7_save_write_order 2500 (fun _ => 0)).2.2.1,
   (C7_save_write_order 2500 (fun _ => 0)).2.2.2.2 3 (by decide)⟩

/-- Masking twice with the same mask equals masking once. -/
theorem land_mask_twice (x m : Nat) : (x &&& m) &&& m = x &&& m := by
  apply Nat.eq_of_testBit_eq
  intro i
  simp [Nat.testBit_land, Bool.and_assoc]

/-- The bits of the 8-bit mask ~(1 << 2) = 0xFB. -/
theorem testBit_251 (i : Nat) : (251 : Nat).testBit i = (decide (i < 8) && decide (i ≠ 2)) := by
  by_cases hi : i < 8
  · interval_cases i <;> decide
  · have hp : (256 : Nat) ≤ 2 ^ i := by
      have := Nat.pow_le_pow_right (show 0 < 2 by norm_num) (le_of_not_lt hi)
      simpa using this
    have h8 : (251 : Nat) < 2 ^ i := lt_of_lt_of_le (by norm_num) hp
    simp [Nat.testBit_eq_false_of_lt h8, hi]

/-- The bits of the 8-bit mask ~(1 << 3) = 0xF7. -/
theorem testBit_247 (i : Nat) : (247 : Nat).testBit i = (decide (i < 8) && decide (i ≠ 3)) := by
  by_cases hi : i < 8
  · interval_cases i <;> decide
  · have hp : (256 : Nat) ≤ 2 ^ i := by
      have := Nat.pow_le_pow_right (show 0 < 2 by norm_num) (le_of_not_lt hi)
      simpa using this
    have h8 : (247 : Nat) < 2 ^ i := lt_of_lt_of_le (by norm_num) hp
    simp [Nat.testBit_eq_false_of_lt h8, hi]

/-- Clearing bit 2 of a byte that already has bit 2 clear changes nothing. -/
theorem land_251_eq_self {x : Nat} (hx : x < 256) (h2 : x.testBit 2 = false) :
    x &&& 251 = x := by
  apply Nat.eq_of_testBit_eq
  intro i
  rw [Nat.testBit_land, testBit_251]
  by_cases hi : i < 8
  · by_cases h2i : i = 2
    · subst h2i; simp [h2]
    · simp [hi, h2i]
  · have hp : (256 : Nat) ≤ 2 ^ i := by
      have := Nat.pow_le_pow_right (show 0 < 2 by norm_num) (le_of_not_lt hi)
      simpa using this
    have hxf : x.testBit i = false :=
      Nat.testBit_eq_false_of_lt (lt_of_lt_of_le hx hp)
    simp [hxf]

/-- Clearing bit 3 of a byte that already has bit 3 clear changes nothing. -/
theorem land_247_eq_self {x : Nat} (hx : x < 256) (h3 : x.testBit 3 = false) :
    x &&& 247 = x := by
  apply Nat.eq_of_testBit_eq
  intro i
  rw [Nat.testBit_land, testBit_247]
  by_cases hi : i < 8
  · by_cases h3i : i = 3
    · subst h3i; simp [h3]
    · simp [hi, h3i]
  · have hp : (256 : Nat) ≤ 2 ^ i := by
      have := Nat.pow_le_pow_right (show 0 < 2 by norm_num) (le_of_not_lt hi)
      simpa using this
    have hxf : x.testBit i = false :=
      Nat.testBit_eq_false_of_lt (lt_of_lt_of_le hx hp)
    simp [hxf]

/-- C8: tone_stop is idempotent: two consecutive calls leave the same
state as one; on a state where no tone is active it is a no-op (the
output line stays low, the timer stays disabled, the compare-match
interrupt stays masked); and after any call the resulting state has no
tone active. -/
theorem C8_tone_stop_idempotent :
    (∀ s : Regs, tone_stop (tone_stop s) = tone_stop s) ∧
    (∀ s : Regs, toneStopped s → tone_stop s = s) ∧
    (∀ s : Regs, toneStopped (tone_stop s)) := by
  refine ⟨?_, ?_, ?_⟩
  · intro s
    obtain ⟨o, d, p, ta, tb, ti, si⟩ := s
    simp [tone_stop, land_mask_twice]
  · intro s h
    obtain ⟨o, d, p, ta, tb, ti, si⟩ := s
    obtain ⟨hb2, hta, htb, hb3, hti, hp⟩ := h
    have e1 : ti &&& 0xFB = ti := land_251_eq_self hti hb2
    have e2 : p &&& 0xF7 = p := land_247_eq_self hp hb3
    simp only [tone_stop] at *
    simp [e1, e2, hta, htb]
  · intro s
    refine ⟨?_, rfl, rfl, ?_, ?_, ?_⟩
    · show ((tone_stop s).TIMSK0).testBit OCIE0A = false
      simp [tone_stop, Nat.testBit_land, testBit_251, OCIE0A]
    · show ((tone_stop s).PORTB).testBit BUZZER_PIN = false
      simp [tone_stop, Nat.testBit_land, testBit_247, BUZZER_PIN]
    · exact lt_of_le_of_lt Nat.and_le_right (by norm_num)
    · exact lt_of_le_of_lt Nat.and_le_right (by norm_num)

/-- C8 witness: on the all-zero (already stopped) register state, a
call to tone_stop leaves the state unchanged. -/
theorem C8_tone_stop_idempotent_witness :
    tone_stop ⟨0, 0, 0, 0, 0, 0, false⟩ = ⟨0, 0, 0, 0, 0, 0, false⟩ :=
  C8_tone_stop_idempotent.2.1 ⟨0, 0, 0, 0, 0, 0, false⟩
    ⟨by decide, rfl, rfl, by decide, by decide, by decide⟩

/-- The compare value loaded by tone_start at 9.6 MHz, as a clamped
quotient.  600000 = 9600000 / 16. -/
theorem tone_start_OCR0A_96 (f : Nat) (s : Regs) (h1 : 0 < f) (h2 : f < 65536) :
    (tone_start 9600000 f s).OCR0A = max 1 (min 255 (600000 / f - 1)) := by
  unfold tone_start
  rw [if_neg (by omega : ¬f = 0), if_pos rfl]
  dsimp only
  by_cases hsmall : f < 10
  · interval_cases f <;> decide
  · have hdle : 600000 / f ≤ 600000 / 10 := Nat.div_le_div_left (by omega) (by omega)
    have hv : 600000 / f - 1 < 65536 := by omega
    rw [Nat.mod_eq_of_lt hv]
    split_ifs <;> omega

/-- The compare value loaded by tone_start at 1.2 MHz, as a clamped
quotient.  75000 = 1200000 / 16. -/
theorem tone_start_OCR0A_12 (f : Nat) (s : Regs) (h1 : 0 < f) (h2 : f < 65536) :
    (tone_start 1200000 f s).OCR0A = max 1 (min 255 (75000 / f - 1)) := by
  unfold tone_start
  rw [if_neg (by omega : ¬f = 0), if_neg (by decide : ¬(1200000 = 9600000))]
  dsimp only
  by_cases hsmall : f < 2
  · interval_cases f
    decide
  · have hdle : 75000 / f ≤ 75000 / 2 := Nat.div_le_div_left (by omega) (by omega)
    have hv : 75000 / f - 1 < 65536 := by omega
    rw [Nat.mod_eq_of_lt hv]
    split_ifs <;> omega

/-- C3: tone_start(0) is a no-op leaving the state unchanged; for any
frequency 0 < f < 2^16, tone_start computes the divisor
clock / (2 * 8 * f) - 1 for its compile-time clock (9.6 MHz or
1.2 MHz), clamps it to [1, 255], and loads it into the compare
register OCR0A. -/
theorem C3_tone_start_clamped_divisor :
    (∀ (fcpu : Nat) (s : Regs), tone_start fcpu 0 s = s) ∧
    (∀ (f : Nat) (s : Regs), 0 < f → f < 65536 →
      (tone_start 9600000 f s).OCR0A = max 1 (min 255 (9600000 / (2 * 8 * f) - 1)) ∧
      (tone_start 1200000 f s).OCR0A = max 1 (min 255 (1200000 / (2 * 8 * f) - 1))) := by
  constructor
  · intro fcpu s
    simp [tone_start]
  · intro f s h1 h2
    constructor
    · rw [tone_start_OCR0A_96 f s h1 h2, show 2 * 8 * f = 16 * f by ring,
        ← Nat.div_div_eq_div_mul]
    · rw [tone_start_OCR0A_12 f s h1 h2, show 2 * 8 * f = 16 * f by ring,
        ← Nat.div_div_eq_div_mul]

/-- C3 witness: at f = 2500 the loaded divisor is 239 at 9.6 MHz and
29 at 1.2 MHz, matching the clamped formula; tone_start(0) leaves a
concrete state unchanged. -/
theorem C3_tone_start_clamped_divisor_witness :
    tone_start 9600000 0 ⟨0, 0, 0, 0, 0, 0, false⟩ = ⟨0, 0, 0, 0, 0, 0, false⟩ ∧
    (tone_start 9600000 2500 ⟨0, 0, 0, 0, 0, 0, false⟩).OCR0A =
      max 1 (min 255 (9600000 / (2 * 8 * 2500) - 1)) ∧
    (tone_start 1200000 2500 ⟨0, 0, 0, 0, 0, 0, false⟩).OCR0A =
      max 1 (min 255 (1200000 / (2 * 8 * 2500) - 1)) :=
  ⟨C3_tone_start_clamped_divisor.1 9600000 ⟨0, 0, 0, 0, 0, 0, false⟩,
   (C3_tone_start_clamped_divisor.2 2500 ⟨0, 0, 0, 0, 0, 0, false⟩ (by decide) (by decide)).1,
   (C3_tone_start_clamped_divisor.2 2500 ⟨0, 0, 0, 0, 0, 0, false⟩ (by decide) (by decide)).2⟩

/-- Effective square-wave frequency for a loaded compare value d: the
line toggles every d + 1 timer ticks at clock/8, and two toggles make
one cycle, so f_eff = clock / (2 * 8 * (d + 1)). -/
def effective_freq (fcpu d : Nat) : Nat := fcpu / (2 * 8 * (d + 1))

theorem effective_freq_96 (d : Nat) : effective_freq 9600000 d = 600000 / (d + 1) := by
  unfold effective_freq
  rw [show 2 * 8 * (d + 1) = 16 * (d + 1) by ring, ← Nat.div_div_eq_div_mul]

theorem effective_freq_12 (d : Nat) : effective_freq 1200000 d = 75000 / (d + 1) := by
  unfold effective_freq
  rw [show 2 * 8 * (d + 1) = 16 * (d + 1) by ring, ← Nat.div_div_eq_div_mul]

/-- A frequency f is squeezed between the effective frequencies of the
quotient divisor c / f and its successor. -/
theorem div_div_within_step (c f : Nat) (h1 : 0 < f) (hle : f ≤ c) :
    c / (c / f + 1) ≤ f ∧ f ≤ c / (c / f) := by
  constructor
  · have hmod : c % f < f := Nat.mod_lt c h1
    have hdm : f * (c / f) + c % f = c := Nat.div_add_mod c f
    have h2 : c < (f + 1) * (c / f + 1) := by nlinarith
    have h3 : c / (c / f + 1) < f + 1 :=
      (Nat.div_lt_iff_lt_mul (Nat.succ_pos (c / f))).mpr h2
    omega
  · have hq : 0 < c / f := Nat.div_pos hle h1
    rw [Nat.le_div_iff_mul_le hq]
    calc f * (c / f) = c / f * f := by ring
      _ ≤ c := Nat.div_mul_le_self c f

/-- C4: over the sweep range [2400, 3000], the compare value loaded by
tone_start stays inside the register bounds [1, 255], the effective
output frequency read back from it lies within one representable step
of the requested f (f sits between the effective frequencies of the
loaded divisor and of the next divisor), and the requested-frequency to
effective-frequency mapping is monotone, at both supported clocks. -/
theorem C4_effective_freq_within_step :
    ∀ (f : Nat) (s : Regs), 2400 ≤ f → f ≤ 3000 →
      (1 ≤ (tone_start 9600000 f s).OCR0A ∧ (tone_start 9600000 f s).OCR0A ≤ 255 ∧
        effective_freq 9600000 ((tone_start 9600000 f s).OCR0A + 1) ≤ f ∧
        f ≤ effective_freq 9600000 ((tone_start 9600000 f s).OCR0A)) ∧
      (1 ≤ (tone_start 1200000 f s).OCR0A ∧ (tone_start 1200000 f s).OCR0A ≤ 255 ∧
        effective_freq 1200000 ((tone_start 1200000 f s).OCR0A + 1) ≤ f ∧
        f ≤ effective_freq 1200000 ((tone_start 1200000 f s).OCR0A)) ∧
      (∀ f2, 2400 ≤ f2 → f2 ≤ 3000 → f ≤ f2 →
        effective_freq 9600000 ((tone_start 9600000 f s).OCR0A) ≤
          effective_freq 9600000 ((tone_start 9600000 f2 s).OCR0A) ∧
        effective_freq 1200000 ((tone_start 1200000 f s).OCR0A) ≤
          effective_freq 1200000 ((tone_start 1200000 f2 s).OCR0A)) := by
  have hocr96 : ∀ f, 2400 ≤ f → f ≤ 3000 → ∀ s : Regs,
      (tone_start 9600000 f s).OCR0A = 600000 / f - 1 := by
    intro f hf1 hf2 s
    rw [tone_start_OCR0A_96 f s (by omega) (by omega)]
    have hu : 600000 / f ≤ 600000 / 2400 := Nat.div_le_div_left (by omega) (by omega)
    have hl : 600000 / 3000 ≤ 600000 / f := Nat.div_le_div_left (by omega) (by omega)
    norm_num at hu hl
    omega
  have hocr12 : ∀ f, 2400 ≤ f → f ≤ 3000 → ∀ s : Regs,
      (tone_start 1200000 f s).OCR0A = 75000 / f - 1 := by
    intro f hf1 hf2 s
    rw [tone_start_OCR0A_12 f s (by omega) (by omega)]
    have hu : 75000 / f ≤ 75000 / 2400 := Nat.div_le_div_left (by omega) (by omega)
    have hl : 75000 / 3000 ≤ 75000 / f := Nat.div_le_div_left (by omega) (by omega)
    norm_num at hu hl
    omega
  intro f s h1 h2
  have hq96u : 600000 / f ≤ 600000 / 2400 := Nat.div_le_div_left (by omega) (by omega)
  have hq96l : 600000 / 3000 ≤ 600000 / f := Nat.div_le_div_left (by omega) (by omega)
  have hq12u : 75000 / f ≤ 75000 / 2400 := Nat.div_le_div_left (by omega) (by omega)
  have hq12l : 75000 / 3000 ≤ 75000 / f := Nat.div_le_div_left (by omega) (by omega)
  norm_num at hq96u hq96l hq12u hq12l
  refine ⟨?_, ?_, ?_⟩
  · rw [hocr96 f h1 h2 s, effective_freq_96, effective_freq_96]
    rw [show 600000 / f - 1 + 1 + 1 = 600000 / f + 1 by omega,
      show 600000 / f - 1 + 1 = 600000 / f by omega]
    have hs := div_div_within_step 600000 f (by omega) (by omega)
    exact ⟨by omega, by omega, hs.1, hs.2⟩
  · rw [hocr12 f h1 h2 s, effective_freq_12, effective_freq_12]
    rw [show 75000 / f - 1 + 1 + 1 = 75000 / f + 1 by omega,
      show 75000 / f - 1 + 1 = 75000 / f by omega]
    have hs := div_div_within_step 75000 f (by omega) (by omega)
    exact ⟨by omega, by omega, hs.1, hs.2⟩
  · intro f2 hf21 hf22 hle
    have hg96 : 600000 / 3000 ≤ 600000 / f2 := Nat.div_le_div_left (by omega) (by omega)
    have hg12 : 75000 / 3000 ≤ 75000 / f2 := Nat.div_le_div_left (by omega) (by omega)
    norm_num at hg96 hg12
    rw [hocr96 f h1 h2 s, hocr96 f2 hf21 hf22 s, hocr12 f h1 h2 s, hocr12 f2 hf21 hf22 s,
      effective_freq_96, effective_freq_96, effective_freq_12, effective_freq_12]
    rw [show 600000 / f - 1 + 1 = 600000 / f by omega,
      show 600000 / f2 - 1 + 1 = 600000 / f2 by omega,
      show 75000 / f - 1 + 1 = 75000 / f by omega,
      show 75000 / f2 - 1 + 1 = 75000 / f2 by omega]
    constructor
    · exact Nat.div_le_div_left (Nat.div_le_div_left hle (by omega)) (by omega)
    · exact Nat.div_le_div_left (Nat.div_le_div_left hle (by omega)) (by omega)

/-- C4 witness: at f = 2500 and 9.6 MHz the loaded divisor is 239 and
the effective frequencies around it bracket 2500; similarly at 1.2 MHz
with divisor 29; the mapping is monotone from 2500 to 2600. -/
theorem C4_effective_freq_within_step_witness :
    (1 ≤ (tone_start 9600000 2500 ⟨0, 0, 0, 0, 0, 0, false⟩).OCR0A ∧
      (tone_start 9600000 2500 ⟨0, 0, 0, 0, 0, 0, false⟩).OCR0A ≤ 255 ∧
      effective_freq 9600000 ((tone_start 9600000 2500 ⟨0, 0, 0, 0, 0, 0, false⟩).OCR0A + 1) ≤ 2500 ∧
      2500 ≤ effective_freq 9600000 ((tone_start 9600000 2500 ⟨0, 0, 0, 0, 0, 0, false⟩).OCR0A)) ∧
    (effective_freq 1200000 ((tone_start 1200000 2500 ⟨0, 0, 0, 0, 0, 0, false⟩).OCR0A) ≤
      effective_freq 1200000 ((tone_start 1200000 2600 ⟨0, 0, 0, 0, 0, 0, false⟩).OCR0A)) :=
  ⟨(C4_effective_freq_within_step 2500 ⟨0, 0, 0, 0, 0, 0, false⟩ (by decide) (by decide)).1,
   ((C4_effective_freq_within_step 2500 ⟨0, 0, 0, 0, 0, 0, false⟩ (by decide) (by decide)).2.2
      2600 (by decide) (by decide) (by decide)).2⟩

/-- C5: starting from SILENT (sound_on = false), sampling the
sound-request signal at levels low, high, low at three consecutive
polling instants — BUZ- is active-low, so the physical PINB values are
2 (bit 1 high), 0 (bit 1 low), 2 — drives the state through
SILENT → SOUNDING → SILENT with exactly one tone_start and exactly one
tone_stop call in that order; the polling loop only acts on the sample
taken at each instant, so hold times between samples cannot add calls;
and a sampled level consistent with the current state makes no call. -/
theorem C5_relay_low_high_low :
    (∀ freq : Nat, loop_run freq false [2, 0, 2] =
      [(false, []), (true, [Ev.tstart freq]), (false, [Ev.tstop])]) ∧
    (∀ freq : Nat,
      (loop_run freq false [2, 0, 2]).flatMap Prod.snd = [Ev.tstart freq, Ev.tstop]) ∧
    (∀ (freq pinb : Nat) (sound_on : Bool), fc_wants_sound pinb = sound_on →
      loop_step freq sound_on pinb = (sound_on, [])) := by
  refine ⟨fun freq => rfl, fun freq => rfl, ?_⟩
  intro freq pinb sound_on h
  cases sound_on <;> simp [loop_step, h]

/-- C5 witness: the three-sample run at frequency 2500, and the two
no-op cases (requesting input while sounding at PINB = 0, idle input
while silent at PINB = 2). -/
theorem C5_relay_low_high_low_witness :
    loop_run 2500 false [2, 0, 2] =
      [(false, []), (true, [Ev.tstart 2500]), (false, [Ev.tstop])] ∧
    loop_step 2500 true 0 = (true, []) ∧
    loop_step 2500 false 2 = (false, []) :=
  ⟨C5_relay_low_high_low.1 2500,
   C5_relay_low_high_low.2.2 2500 0 true (by decide),
   C5_relay_low_high_low.2.2 2500 2 false (by decide)⟩

/-- The inner sweep loop of auto_sweep_mode fully unfolded: seven
candidates from 2400 to 3000 in steps of 100, each saved immediately
before it is played. -/
theorem sweep_pass_eq : sweep_pass FREQ_MIN =
    [SweepEv.save 2400, SweepEv.play 2400 1500, SweepEv.rest 500,
     SweepEv.save 2500, SweepEv.play 2500 1500, SweepEv.rest 500,
     SweepEv.save 2600, SweepEv.play 2600 1500, SweepEv.rest 500,
     SweepEv.save 2700, SweepEv.play 2700 1500, SweepEv.rest 500,
     SweepEv.save 2800, SweepEv.play 2800 1500, SweepEv.rest 500,
     SweepEv.save 2900, SweepEv.play 2900 1500, SweepEv.rest 500,
     SweepEv.save 3000, SweepEv.play 3000 1500, SweepEv.rest 500] := by
  simp [sweep_pass, FREQ_MIN, FREQ_MAX, FREQ_STEP, CALIB_TONE_MS, CALIB_PAUSE_MS]

/-- Prepending one full sweep iteration leaves the persisted-frequency
check to continue with 3000, the last frequency saved. -/
theorem persisted_ok_iter_append (tl : List SweepEv) (s : Option Nat) :
    persisted_ok (sweep_iter_trace ++ tl) s = persisted_ok tl (some 3000) := by
  rw [sweep_iter_trace, sweep_pass_eq]
  simp [persisted_ok]

/-- Every run of the sweep loop keeps every played tone equal to the
frequency most recently saved, from any starting persisted value. -/
theorem persisted_ok_auto_sweep (n : Nat) (s : Option Nat) :
    persisted_ok (auto_sweep_trace n) s = true := by
  induction n generalizing s with
  | zero => rfl
  | succ n ih => rw [auto_sweep_trace, persisted_ok_iter_append]; exact ih (some 3000)

/-- C6: the while(1) loop of auto_sweep_mode never returns (it yields
no result for any amount of fuel); one sweep pass saves each candidate
2400, 2500, ..., 3000 immediately before playing it; and along any
number of sweep iterations, every tone played is the frequency most
recently saved to EEPROM. -/
theorem C6_sweep_never_returns_saves_first :
    (∀ fuel : Nat, auto_sweep_loop fuel = none) ∧
    sweep_pass FREQ_MIN =
      [SweepEv.save 2400, SweepEv.play 2400 1500, SweepEv.rest 500,
       SweepEv.save 2500, SweepEv.play 2500 1500, SweepEv.rest 500,
       SweepEv.save 2600, SweepEv.play 2600 1500, SweepEv.rest 500,
       SweepEv.save 2700, SweepEv.play 2700 1500, SweepEv.rest 500,
       SweepEv.save 2800, SweepEv.play 2800 1500, SweepEv.rest 500,
       SweepEv.save 2900, SweepEv.play 2900 1500, SweepEv.rest 500,
       SweepEv.save 3000, SweepEv.play 3000 1500, SweepEv.rest 500] ∧
    (∀ n : Nat, persisted_ok (auto_sweep_trace n) none = true) := by
  refine ⟨?_, sweep_pass_eq, fun n => persisted_ok_auto_sweep n none⟩
  intro fuel
  induction fuel with
  | zero => rfl
  | succ n ih => rw [auto_sweep_loop]; exact ih

/-- The 10 ms wait loop is exactly floor(d / 10) blocks of a 10 ms
delay immediately followed by a watchdog reset. -/
theorem delay_loop_tr_eq (d : Nat) :
    delay_loop_tr d = (List.replicate (d / 10) [Ev.delay_ms10, Ev.wdt_rst]).flatten := by
  induction d using Nat.strong_induction_on with
  | _ d ih =>
    rw [delay_loop_tr]
    by_cases h : 10 ≤ d
    · rw [if_pos h, ih (d - 10) (by omega), show d / 10 = (d - 10) / 10 + 1 by omega]
      simp [List.replicate_succ]
    · rw [if_neg h, show d / 10 = 0 by omega]
      simp

/-- C9: the wait in pause is exactly floor(d / 10) blocks of one fixed
10 ms sub-delay each immediately followed by a watchdog reassertion,
and likewise the wait inside beep, so no wait runs longer than one
sub-delay without a reassertion; and every iteration of the main
polling loop performs a watchdog reassertion. -/
theorem C9_watchdog_reassertion :
    (∀ d : Nat,
      pause_tr d = (List.replicate (d / 10) [Ev.delay_ms10, Ev.wdt_rst]).flatten) ∧
    (∀ f d : Nat,
      beep_tr f d =
        Ev.tstart f :: (List.replicate (d / 10) [Ev.delay_ms10, Ev.wdt_rst]).flatten
          ++ [Ev.tstop]) ∧
    (∀ (freq : Nat) (sound_on : Bool) (pinb : Nat),
      Ev.wdt_rst ∈ (main_iter freq sound_on pinb).2) := by
  refine ⟨fun d => delay_loop_tr_eq d, fun f d => ?_, ?_⟩
  · rw [beep_tr, delay_loop_tr_eq]
  · intro freq sound_on pinb
    simp [main_iter]

/-- Waiting time actually spent by the 10 ms wait loop. -/
theorem elapsed_ms_delay_loop (d : Nat) : elapsed_ms (delay_loop_tr d) = 10 * (d / 10) := by
  induction d using Nat.strong_induction_on with
  | _ d ih =>
    rw [delay_loop_tr]
    by_cases h : 10 ≤ d
    · rw [if_pos h]
      show 10 + elapsed_ms (delay_loop_tr (d - 10)) = _
      rw [ih (d - 10) (by omega)]
      omega
    · rw [if_neg h, show d / 10 = 0 by omega]
      rfl

/-- elapsed_ms adds over concatenation. -/
theorem elapsed_ms_append (l1 l2 : List Ev) :
    elapsed_ms (l1 ++ l2) = elapsed_ms l1 + elapsed_ms l2 := by
  induction l1 with
  | nil => simp [elapsed_ms]
  | cons hd tl ih => cases hd <;> (simp [elapsed_ms, ih]; try omega)

/-- C10: both blocking waits elapse exactly 10 * floor(d / 10)
milliseconds, dropping any remainder below 10 ms; with d < 10 pause
returns with no wait at all, and beep starts and immediately stops the
tone. -/
theorem C10_wait_rounds_down :
    (∀ d : Nat, elapsed_ms (pause_tr d) = 10 * (d / 10)) ∧
    (∀ f d : Nat, elapsed_ms (beep_tr f d) = 10 * (d / 10)) ∧
    (∀ d : Nat, d < 10 → pause_tr d = []) ∧
    (∀ f d : Nat, d < 10 → beep_tr f d = [Ev.tstart f, Ev.tstop]) := by
  have hlt : ∀ d : Nat, d < 10 → delay_loop_tr d = [] := by
    intro d h
    rw [delay_loop_tr, if_neg (by omega)]
  refine ⟨fun d => elapsed_ms_delay_loop d, fun f d => ?_, fun d h => hlt d h, fun f d h => ?_⟩
  · show elapsed_ms (Ev.tstart f :: (delay_loop_tr d ++ [Ev.tstop])) = _
    show elapsed_ms (delay_loop_tr d ++ [Ev.tstop]) = _
    rw [elapsed_ms_append, elapsed_ms_delay_loop]
    rfl
  · rw [beep_tr, hlt d h]
    rfl

/-- C10 witness: pause(25) waits 20 ms, beep(2500, 25) waits 20 ms,
pause(5) makes no wait, and beep(2500, 5) is start immediately
followed by stop. -/
theorem C10_wait_rounds_down_witness :
    elapsed_ms (pause_tr 25) = 10 * (25 / 10) ∧
    elapsed_ms (beep_tr 2500 25) = 10 * (25 / 10) ∧
    pause_tr 5 = [] ∧
    beep_tr 2500 5 = [Ev.tstart 2500, Ev.tstop] :=
  ⟨C10_wait_rounds_down.1 25, C10_wait_rounds_down.2.1 2500 25,
   C10_wait_rounds_down.2.2.1 5 (by decide), C10_wait_rounds_down.2.2.2 2500 5 (by decide)⟩

end Buzzer
